import Mathlib

/-!
Shallow embedding of `src/worker.js` (Cloudflare Worker syncing ASN prefixes
from a D1 database to a Cloudflare Gateway list), together with theorems
checking the natural-language specification against it.

The pure computations of the worker (CIDR validation, deduplication, diffing,
batch partitioning) are translated directly into Lean functions.  The
effectful parts (D1 queries, HTTP GET/PATCH traffic) are embedded by making
the environment explicit: the database and the remote API are oracles
supplied as values, and each function returns, besides its result, the list
of observable I/O events it performs, in order.  HTTP PATCH traffic is
modelled by a trace of responses that successive requests consume.
-/

/-! ## CIDR validation (worker.js lines 88-95)

The JS code tests the anchored regex
`^(?:(?:[0-9]{1,3}\.){3}[0-9]{1,3}\/[0-9]{1,2}|(?:[0-9a-fA-F:]+)\/[0-9]{1,3})$`.
Neither character class contains `/`, and the dotted-quad classes do not
contain `.` except as the literal separator, so a full match decomposes the
string at its unique `/` (and the address part at its dots).  We embed the
regex as an executable matcher over the character list. -/

/-- Character class `[0-9a-fA-F:]` of the second regex alternative. -/
def isHexColonChar (c : Char) : Bool :=
  c.isDigit || (('a' ≤ c) && (c ≤ 'f')) || (('A' ≤ c) && (c ≤ 'F')) || (c == ':')

/-- Splitting a character list at every occurrence of a separator character,
mirroring how the anchored regex decomposes its subject. -/
def splitOnChar (c : Char) : List Char → List (List Char)
  | [] => [[]]
  | x :: xs =>
    if x = c then [] :: splitOnChar c xs
    else
      match splitOnChar c xs with
      | g :: gs => (x :: g) :: gs
      | [] => [[x]]

/-- A run of one to three ASCII digits: the regex piece `[0-9]{1,3}`. -/
def isOctetRun (l : List Char) : Bool :=
  decide (1 ≤ l.length) && decide (l.length ≤ 3) && l.all Char.isDigit

/-- A run of digits of length between `lo` and `hi`: the masked length of the
regex pieces `[0-9]{1,2}` and `[0-9]{1,3}`. -/
def isDigitRun (lo hi : Nat) (l : List Char) : Bool :=
  decide (lo ≤ l.length) && decide (l.length ≤ hi) && l.all Char.isDigit

/-- The IPv4 alternative of the regex address part: `(?:[0-9]{1,3}\.){3}[0-9]{1,3}`. -/
def isDottedQuad (l : List Char) : Bool :=
  match splitOnChar '.' l with
  | [a, b, c, d] => isOctetRun a && isOctetRun b && isOctetRun c && isOctetRun d
  | _ => false

/-- Embeds `isValidCIDR` of worker.js lines 88-95: the anchored regex match on
the whole string.  Total, so the JS `try/catch` (which can never fire) needs
no separate modelling. -/
def isValidCIDR (s : String) : Bool :=
  match splitOnChar '/' s.data with
  | [addr, plen] =>
    (isDottedQuad addr && isDigitRun 1 2 plen)
      || (decide (1 ≤ addr.length) && addr.all isHexColonChar && isDigitRun 1 3 plen)
  | _ => false

/-! ## Deduplication and diff (worker.js lines 43, 56-60) -/

/-- First-occurrence deduplication, as performed by the JS idiom
`[...new Set(xs)]` (a JS `Set` iterates in insertion order). -/
def dedupKeepFirst (seen : List String) : List String → List String
  | [] => []
  | x :: xs =>
    if seen.contains x then dedupKeepFirst seen xs
    else x :: dedupKeepFirst (x :: seen) xs

/-- Worker.js line 43: `[...new Set(desired.filter(p => isValidCIDR(p)))]`. -/
def validDesiredOf (desired : List String) : List String :=
  dedupKeepFirst [] (desired.filter isValidCIDR)

/-- The diff stage of `syncASN` (worker.js lines 56-60): membership tests via
JS `Set.has`, i.e. exact string equality. -/
def computeDiff (validDesired existing : List String) : List String × List String :=
  (validDesired.filter (fun p => !(existing.contains p)),
   existing.filter (fun p => !(validDesired.contains p)))

/-! ## Batch partitioning (worker.js lines 178-186)

The JS loop `for (let i = 0; i < xs.length; i += batchSize) push(xs.slice(i,
i + batchSize))` produces the consecutive chunks of `xs`.  We embed it with
explicit fuel (the list length bounds the number of iterations whenever the
batch size is positive, and every call site passes 50 or 100). -/

def chunkedFuel (bs : Nat) : Nat → List String → List (List String)
  | 0, _ => []
  | _, [] => []
  | fuel + 1, l => l.take bs :: chunkedFuel bs fuel (l.drop bs)

/-- Consecutive chunks of at most `bs` elements, as built by the slicing loops
of `updateGatewayListBatched` (batch size 50) and `updateSyncedPrefixes`
(batch size 100). -/
def chunked (bs : Nat) (l : List String) : List (List String) :=
  chunkedFuel bs l.length l

/-! ## Observable I/O events

One constructor per kind of side effect the worker performs: read queries and
write statements against D1, the Gateway list GET, each PATCH request (with
the body it carries), and the rate-limit backoff delay. -/

/-- Body of one PATCH request: worker.js builds either
`\x7b append: [...] \x7d` or `\x7b remove: [...] \x7d`, never both
(lines 193 and 200); an absent field is `none`.  Item objects
`\x7b value: p \x7d` are represented by their `value` string. -/
structure PatchPayload where
  app : Option (List String)
  rem : Option (List String)
deriving DecidableEq, Repr

inductive Event where
  | dbQuery (sql : String)
  | dbWrite (sql : String)
  | httpGet
  | httpPatch (payload : PatchPayload)
  | delayMs (ms : Nat)
deriving DecidableEq, Repr

def Event.isPatch : Event → Bool
  | .httpPatch _ => true
  | _ => false

def Event.isDbWrite : Event → Bool
  | .dbWrite _ => true
  | _ => false

def Event.isDelay : Event → Bool
  | .delayMs _ => true
  | _ => false

/-! ## Remote API oracles

A PATCH attempt observes a transport status and a body; `JSON.parse` of the
body is embedded as an `Option` of the parsed shape. -/

/-- Parsed body of a PATCH response: only its `success` flag steers the code
(worker.js line 239); the `errors`/`result` fields only feed log text. -/
structure PatchBody where
  success : Bool
deriving DecidableEq, Repr

/-- One observed PATCH response: transport status plus parse outcome of the
body text (`none` embeds a body `JSON.parse` throws on). -/
structure PatchResponse where
  status : Nat
  parsed : Option PatchBody
deriving DecidableEq, Repr

/-- JS `res.ok`: status in the inclusive range 200-299. -/
def statusOk (s : Nat) : Bool := decide (200 ≤ s) && decide (s < 300)

/-- Parsed body of the Gateway list GET: `success` flag, optional `result`
object, optional `result.items` array of `value` strings. -/
structure GetResult where
  items : Option (List String)
deriving DecidableEq, Repr

structure GetBody where
  success : Bool
  result : Option GetResult
deriving DecidableEq, Repr

structure GetResponse where
  status : Nat
  parsed : Option GetBody
deriving DecidableEq, Repr

/-! ## Single PATCH with 429 retry (worker.js lines 205-248) -/

inductive SingleOutcome where
  | applied
  | skipped
  | failed (batchLabel : String) (msg : String)
  | exhausted
deriving DecidableEq, Repr

/-- Attempt loop of `updateGatewayListSingle`: issue the PATCH, and on a 429
wait 1000 ms and re-issue the identical payload (the JS recursion at line
227).  Consumes one response per attempt from the trace; `exhausted` is the
model artifact for a trace that ends while the code would still be retrying.
On failure the outcome carries the batch label that the error path reports
(worker.js line 245) and the thrown message. -/
def singleAttempts (payload : PatchPayload) (batchLabel : String) :
    List PatchResponse → SingleOutcome × List Event × List PatchResponse
  | [] => (.exhausted, [.httpPatch payload], [])
  | r :: rest =>
    if statusOk r.status then
      match r.parsed with
      | none => (.failed batchLabel "Failed to parse API response", [.httpPatch payload], rest)
      | some b =>
        if b.success then (.applied, [.httpPatch payload], rest)
        else (.failed batchLabel "Update failed", [.httpPatch payload], rest)
    else if r.status = 429 then
      match singleAttempts payload batchLabel rest with
      | (o, evs, rem) => (o, .httpPatch payload :: .delayMs 1000 :: evs, rem)
    else
      (.failed batchLabel ("API request failed with status " ++ toString r.status),
       [.httpPatch payload], rest)

/-- Embeds `updateGatewayListSingle` (worker.js lines 205-248): a payload with
neither an `append` nor a `remove` field returns without any request
(lines 206-209); otherwise the attempt loop runs. -/
def updateGatewayListSingle (payload : PatchPayload) (batchLabel : String)
    (trace : List PatchResponse) : SingleOutcome × List Event × List PatchResponse :=
  if payload.app.isNone && payload.rem.isNone then (.skipped, [], trace)
  else singleAttempts payload batchLabel trace

/-! ## Batched update (worker.js lines 170-203) -/

/-- One chunk request queued by `updateGatewayListBatched`: the payload and
its positional label such as `Append batch 2/5`. -/
structure BatchRequest where
  payload : PatchPayload
  batchLabel : String
deriving DecidableEq, Repr

/-- Requests for the batches of one loop of `updateGatewayListBatched`, with
labels `tag ++ (i+1) ++ "/" ++ total` starting from index `i`. -/
def labeledReqs (tag : String) (total : Nat) (mk : List String → PatchPayload) :
    Nat → List (List String) → List BatchRequest
  | _, [] => []
  | i, b :: bs =>
    ⟨mk b, tag ++ toString (i + 1) ++ "/" ++ toString total⟩ ::
      labeledReqs tag total mk (i + 1) bs

/-- The full request sequence of `updateGatewayListBatched`: chunks of `toAdd`
as append payloads (lines 191-195), then chunks of `toRemove` as remove
payloads (lines 198-202). -/
def batchRequests (toAdd toRemove : List String) (batchSize : Nat) : List BatchRequest :=
  let addBatches := chunked batchSize toAdd
  let removeBatches := chunked batchSize toRemove
  labeledReqs "Append batch " addBatches.length (fun b => ⟨some b, none⟩) 0 addBatches
    ++ labeledReqs "Remove batch " removeBatches.length (fun b => ⟨none, some b⟩) 0 removeBatches

/-- Runs the queued requests in order through `updateGatewayListSingle`,
consuming the shared response trace; the first failing request aborts the
remaining ones (the JS exception propagates out of the loops). -/
def runBatches : List BatchRequest → List PatchResponse →
    Except String Unit × List Event × List PatchResponse
  | [], trace => (.ok (), [], trace)
  | b :: bs, trace =>
    match updateGatewayListSingle b.payload b.batchLabel trace with
    | (.applied, evs, rest) =>
      match runBatches bs rest with
      | (r, evs2, rest2) => (r, evs ++ evs2, rest2)
    | (.skipped, evs, rest) =>
      match runBatches bs rest with
      | (r, evs2, rest2) => (r, evs ++ evs2, rest2)
    | (.failed _ msg, evs, rest) => (.error msg, evs, rest)
    | (.exhausted, evs, rest) => (.error "no response available", evs, rest)

/-- Embeds `updateGatewayListBatched` (worker.js lines 170-203). -/
def updateGatewayListBatched (toAdd toRemove : List String) (batchSize : Nat)
    (trace : List PatchResponse) : Except String Unit × List Event × List PatchResponse :=
  runBatches (batchRequests toAdd toRemove batchSize) trace

/-! ## Gateway list reader (worker.js lines 133-168) -/

/-- Embeds `fetchCurrentGatewayList`: one GET event; a non-2xx status or an
unparsable body throws (wrapped by the catch at line 166); a parsed body with
`success` false, a missing `result`, or a missing `result.items` logs a
warning and yields the empty list (lines 159-162); otherwise the raw item
values are returned (line 164). -/
def fetchCurrentGatewayList (r : GetResponse) : Except String (List String) × List Event :=
  let evs := [Event.httpGet]
  if !statusOk r.status then
    (.error ("Failed to fetch Gateway list: API request failed with status "
      ++ toString r.status), evs)
  else
    match r.parsed with
    | none => (.error "Failed to fetch Gateway list: Failed to parse API response", evs)
    | some b =>
      match b.success, b.result with
      | true, some res =>
        match res.items with
        | some items => (.ok items, evs)
        | none => (.ok [], evs)
      | true, none => (.ok [], evs)
      | false, _ => (.ok [], evs)

/-! ## Desired-set loader (worker.js lines 97-131) -/

/-- Oracle for the D1 database as one sync run observes it. -/
structure Db where
  /-- `sync_state.last_run` row for the ASN, if present (line 34). -/
  lastRun : Option String
  /-- `success` flag of the `stmt.all()` result for the main query (line 102). -/
  desiredSuccess : Bool
  /-- `error` field of that result. -/
  desiredError : Option String
  /-- `results` rows of that result: the `prefix` column values. -/
  desiredResults : Option (List String)
  /-- Whether the `sqlite_master` check of line 114 finds the table. -/
  tableExists : Bool
deriving DecidableEq, Repr

def lastRunSql : String := "SELECT last_run FROM sync_state WHERE asn = ?"

def desiredQuerySql (table : String) : String :=
  "SELECT prefix FROM " ++ table ++ " WHERE active = 1"

def tableCheckSql : String :=
  "SELECT name FROM sqlite_master WHERE type=\x27table\x27 AND name = ?"

def sampleSql (table : String) : String :=
  "SELECT prefix, active FROM " ++ table ++ " LIMIT 5"

def activeSql (table : String) : String :=
  "SELECT active, COUNT(*) as count FROM " ++ table ++ " GROUP BY active"

def wrapDesiredErr (table msg : String) : String :=
  "Failed to fetch desired prefixes from " ++ table ++ ": " ++ msg

def noActiveMsg (table : String) : String :=
  "No prefixes found in " ++ table ++ " with active = 1"

/-- Embeds `fetchDesiredPrefixes` (worker.js lines 97-131): runs the
interpolated-table query; a failed or row-less result throws; zero rows
trigger the diagnostic queries (table existence, sample rows, active-value
histogram) and then throw; every thrown message is wrapped by the catch at
line 129. -/
def fetchDesiredPrefixes (db : Db) (table : String) :
    Except String (List String) × List Event :=
  let q := [Event.dbQuery (desiredQuerySql table)]
  if !db.desiredSuccess then
    (.error (wrapDesiredErr table
      ("Query failed: " ++ db.desiredError.getD "unknown error")), q)
  else
    match db.desiredResults with
    | none => (.error (wrapDesiredErr table "No results returned from query"), q)
    | some rows =>
      if rows.isEmpty then
        let q2 := q ++ [Event.dbQuery tableCheckSql]
        if !db.tableExists then
          (.error (wrapDesiredErr table
            ("Table " ++ table ++ " does not exist in the database")), q2)
        else
          (.error (wrapDesiredErr table (noActiveMsg table)),
           q2 ++ [Event.dbQuery (sampleSql table), Event.dbQuery (activeSql table)])
      else (.ok rows, q)

/-! ## Verification probe (worker.js lines 250-290) -/

/-- Embeds `testGatewayListUpdate`: a single append of one value, consuming
one response, with no 429 retry (any non-2xx status throws at line 272). -/
def testGatewayListUpdate (v : String) : List PatchResponse →
    Except String Unit × List Event × List PatchResponse
  | [] => (.error "no response available", [.httpPatch ⟨some [v], none⟩], [])
  | r :: rest =>
    let evs := [Event.httpPatch (⟨some [v], none⟩ : PatchPayload)]
    if !statusOk r.status then
      (.error ("Test API request failed with status " ++ toString r.status), evs, rest)
    else
      match r.parsed with
      | none => (.error "Failed to parse test API response", evs, rest)
      | some b =>
        if b.success then (.ok (), evs, rest)
        else (.error "Test update failed", evs, rest)

/-! ## Local state writer (worker.js lines 292-331)

The claims only constrain when these writes happen and that they are store
writes, so the oracle lets them always succeed and we record one write event
per executed statement batch. -/

def deleteSyncedSql : String := "DELETE FROM synced_prefixes WHERE asn = ?"

def insertSyncedSql : String := "INSERT OR IGNORE INTO synced_prefixes (asn, prefix) VALUES (?, ?)"

def recordSyncSql : String :=
  "INSERT INTO sync_state (asn, last_run) VALUES (?, ?) ON CONFLICT(asn) DO UPDATE SET last_run = excluded.last_run"

/-- Write events of `updateSyncedPrefixes`: the delete (line 295), then, when
any values remain, one `DB.batch` of inserts per chunk of 100 (lines 304-314). -/
def updateSyncedPrefixesEvents (vals : List String) : List Event :=
  Event.dbWrite deleteSyncedSql ::
    (if vals.isEmpty then []
     else (chunked 100 vals).map (fun _ => Event.dbWrite insertSyncedSql))

/-! ## Orchestrator (worker.js lines 19-85) -/

/-- Worker environment bindings: the D1 binding and the four credential
variables; `none` embeds an undefined (hence JS-falsy) binding. -/
structure Env where
  hasDB : Bool
  accountId : Option String
  listId : Option String
  apiEmail : Option String
  apiKey : Option String
deriving DecidableEq, Repr

def Env.credsOk (e : Env) : Bool :=
  e.accountId.isSome && e.listId.isSome && e.apiEmail.isSome && e.apiKey.isSome

/-- The anchored regex `^AS\d+$` of worker.js lines 6 and 21. -/
def matchASN (s : String) : Bool :=
  match s.data with
  | 'A' :: 'S' :: rest => !rest.isEmpty && rest.all Char.isDigit
  | _ => false

/-- Embeds `syncASN` (worker.js lines 19-85) over explicit oracles: the
environment, the database as observed, the GET response, and the trace of
PATCH responses.  Returns the result (the added/removed counts of the final
log line on success, the thrown message on failure) and the ordered list of
I/O events performed before returning. -/
def syncASN (asn : String) (env : Env) (db : Db) (g : GetResponse)
    (trace : List PatchResponse) : Except String (Nat × Nat) × List Event :=
  if !matchASN asn then (.error "Invalid ASN format", [])
  else if !env.hasDB then (.error "Database not initialized", [])
  else if !env.credsOk then (.error "Missing Cloudflare API credentials", [])
  else
    let table := asn
    let e0 := [Event.dbQuery lastRunSql]
    match fetchDesiredPrefixes db table with
    | (.error m, evs) => (.error m, e0 ++ evs)
    | (.ok desired, evs) =>
      let e1 := e0 ++ evs
      match fetchCurrentGatewayList g with
      | (.error m, evs2) => (.error m, e1 ++ evs2)
      | (.ok existing, evs2) =>
        let e2 := e1 ++ evs2
        let validDesired := validDesiredOf desired
        if validDesired.isEmpty && !desired.isEmpty then
          (.error "No valid prefixes after filtering; check prefix format", e2)
        else
          let diff := computeDiff validDesired existing
          let toAdd := diff.1
          let toRemove := diff.2
          match updateGatewayListBatched toAdd toRemove 50 trace with
          | (.error m, evs3, _) => (.error m, e2 ++ evs3)
          | (.ok _, evs3, rest) =>
            let e3 := e2 ++ evs3
            match
              (match toAdd with
               | [] => (Except.ok (), ([] : List Event), rest)
               | v :: _ => testGatewayListUpdate v rest) with
            | (.error m, evs4, _) => (.error m, e3 ++ evs4)
            | (.ok _, evs4, _) =>
              (.ok (toAdd.length, toRemove.length),
               e3 ++ evs4 ++ updateSyncedPrefixesEvents validDesired
                  ++ [Event.dbWrite recordSyncSql])

example : isValidCIDR "1.1.1.0/24" = true := by decide
example : isValidCIDR "1.1.1.0" = false := by decide
example : isValidCIDR "2001:db8::/32" = true := by decide
example : isValidCIDR "not-a-cidr" = false := by decide
example : isValidCIDR "123/456" = true := by decide
example : computeDiff ["a", "b"] ["b", "c"] = (["a"], ["c"]) := by decide
example : chunked 2 ["a", "b", "c", "d", "e"] = [["a", "b"], ["c", "d"], ["e"]] := by decide

/-! ## Helper lemmas: diff -/

theorem mem_computeDiff_fst (D R : List String) (p : String) :
    p ∈ (computeDiff D R).1 ↔ p ∈ D ∧ p ∉ R := by
  simp [computeDiff, List.mem_filter]

theorem mem_computeDiff_snd (D R : List String) (p : String) :
    p ∈ (computeDiff D R).2 ↔ p ∈ R ∧ p ∉ D := by
  simp [computeDiff, List.mem_filter]

/-! ## Helper lemmas: chunking -/

theorem chunkedFuel_flatten (bs : Nat) (hbs : 1 ≤ bs) :
    ∀ (fuel : Nat) (l : List String), l.length ≤ fuel →
      (chunkedFuel bs fuel l).flatten = l := by
  intro fuel
  induction fuel with
  | zero =>
    intro l hl
    have : l = [] := List.length_eq_zero.mp (Nat.le_zero.mp hl)
    subst this
    rfl
  | succ f ih =>
    intro l hl
    cases l with
    | nil => rfl
    | cons x xs =>
      have hd : ((x :: xs).drop bs).length ≤ f := by
        rw [List.length_drop]
        have h1 : (x :: xs).length - bs ≤ (x :: xs).length - 1 :=
          Nat.sub_le_sub_left hbs _
        have h2 : (x :: xs).length - 1 ≤ f := by
          simp only [List.length_cons] at hl ⊢
          omega
        exact Nat.le_trans h1 h2
      calc (chunkedFuel bs (f + 1) (x :: xs)).flatten
          = (x :: xs).take bs ++ (chunkedFuel bs f ((x :: xs).drop bs)).flatten := rfl
        _ = (x :: xs).take bs ++ (x :: xs).drop bs := by rw [ih _ hd]
        _ = x :: xs := List.take_append_drop bs (x :: xs)

theorem chunked_flatten (bs : Nat) (hbs : 1 ≤ bs) (l : List String) :
    (chunked bs l).flatten = l :=
  chunkedFuel_flatten bs hbs l.length l (Nat.le_refl _)

theorem mem_chunkedFuel (bs : Nat) (hbs : 1 ≤ bs) :
    ∀ (fuel : Nat) (l : List String) (c : List String),
      c ∈ chunkedFuel bs fuel l → c.length ≤ bs ∧ c ≠ [] := by
  intro fuel
  induction fuel with
  | zero => intro l c hc; simp [chunkedFuel] at hc
  | succ f ih =>
    intro l c hc
    cases l with
    | nil => simp [chunkedFuel] at hc
    | cons x xs =>
      rcases List.mem_cons.mp hc with h | h
      · subst h
        constructor
        · exact List.length_take_le bs (x :: xs)
        · intro hnil
          have := congrArg List.length hnil
          simp [List.length_take] at this
          omega
      · exact ih _ _ h

theorem mem_chunked (bs : Nat) (hbs : 1 ≤ bs) (l c : List String)
    (hc : c ∈ chunked bs l) : c.length ≤ bs ∧ c ≠ [] :=
  mem_chunkedFuel bs hbs l.length l c hc

/-! ## Helper lemmas: labelled requests -/

theorem labeledReqs_map_payload (tag : String) (total : Nat)
    (mk : List String → PatchPayload) :
    ∀ (i : Nat) (bs : List (List String)),
      (labeledReqs tag total mk i bs).map (fun r => r.payload) = bs.map mk := by
  intro i bs
  induction bs generalizing i with
  | nil => rfl
  | cons b rest ih => simp [labeledReqs, ih]

/-! ## C1 -/

/-- C1: the diff stage of `syncASN` computes `toAdd` as the set difference of
desired minus remote and `toRemove` as remote minus desired, with exact
string equality as membership; hence `toAdd` is disjoint from the remote set
and `toRemove` is disjoint from the desired set. -/
theorem syncASN_diff_correct (D R : List String) :
    (∀ p, p ∈ (computeDiff D R).1 ↔ p ∈ D ∧ p ∉ R)
    ∧ (∀ p, p ∈ (computeDiff D R).2 ↔ p ∈ R ∧ p ∉ D)
    ∧ (computeDiff D R).1.toFinset = D.toFinset \ R.toFinset
    ∧ (computeDiff D R).2.toFinset = R.toFinset \ D.toFinset
    ∧ (∀ p, ¬(p ∈ (computeDiff D R).1 ∧ p ∈ R))
    ∧ (∀ p, ¬(p ∈ (computeDiff D R).2 ∧ p ∈ D)) := by
  refine ⟨mem_computeDiff_fst D R, mem_computeDiff_snd D R, ?_, ?_, ?_, ?_⟩
  · ext p
    simp [List.mem_toFinset, Finset.mem_sdiff, mem_computeDiff_fst]
  · ext p
    simp [List.mem_toFinset, Finset.mem_sdiff, mem_computeDiff_snd]
  · intro p ⟨h1, h2⟩
    exact ((mem_computeDiff_fst D R p).mp h1).2 h2
  · intro p ⟨h1, h2⟩
    exact ((mem_computeDiff_snd D R p).mp h1).2 h2

/-- C1 witness: evaluation at the concrete sets of the spec example. -/
theorem syncASN_diff_correct_witness :
    ("1.1.1.0/24" ∈ (computeDiff ["1.1.1.0/24", "2.2.2.0/24"] ["2.2.2.0/24", "3.3.3.0/24"]).1
     ∧ "1.1.1.0/24" ∈ (["1.1.1.0/24", "2.2.2.0/24"] : List String)
     ∧ "1.1.1.0/24" ∉ (["2.2.2.0/24", "3.3.3.0/24"] : List String))
    ∧ ¬("3.3.3.0/24" ∈ (computeDiff ["1.1.1.0/24", "2.2.2.0/24"] ["2.2.2.0/24", "3.3.3.0/24"]).2
        ∧ "3.3.3.0/24" ∈ (["1.1.1.0/24", "2.2.2.0/24"] : List String)) := by
  constructor
  · refine ⟨?_, by decide, by decide⟩
    exact (syncASN_diff_correct ["1.1.1.0/24", "2.2.2.0/24"]
      ["2.2.2.0/24", "3.3.3.0/24"]).1 "1.1.1.0/24" |>.mpr ⟨by decide, by decide⟩
  · exact (syncASN_diff_correct ["1.1.1.0/24", "2.2.2.0/24"]
      ["2.2.2.0/24", "3.3.3.0/24"]).2.2.2.2.2 "3.3.3.0/24"

/-! ## C2 -/

/-- C2: the batched updater partitions `toAdd` and `toRemove` into consecutive
order-preserving chunks of at most 50 elements, queues exactly one request
per chunk (every chunk is non-empty), all append requests strictly before all
remove requests, each request carrying exactly one of append/remove; a
`toAdd` of length 120 gives 3 append batches of sizes 50, 50, 20 in order. -/
theorem updateGatewayListBatched_partitions (toAdd toRemove : List String) :
    ((chunked 50 toAdd).flatten = toAdd ∧ (chunked 50 toRemove).flatten = toRemove)
    ∧ (∀ c, c ∈ chunked 50 toAdd ∨ c ∈ chunked 50 toRemove → c.length ≤ 50 ∧ c ≠ [])
    ∧ (∃ A B, batchRequests toAdd toRemove 50 = A ++ B
        ∧ A.map (fun r => r.payload)
            = (chunked 50 toAdd).map (fun b => PatchPayload.mk (some b) none)
        ∧ B.map (fun r => r.payload)
            = (chunked 50 toRemove).map (fun b => PatchPayload.mk none (some b)))
    ∧ (∀ r, r ∈ batchRequests toAdd toRemove 50 →
        (r.payload.app.isSome = true ∧ r.payload.rem = none)
        ∨ (r.payload.app = none ∧ r.payload.rem.isSome = true))
    ∧ ((chunked 50 (List.replicate 120 "10.0.0.0/24")).map List.length = [50, 50, 20]
        ∧ (batchRequests (List.replicate 120 "10.0.0.0/24") [] 50).map
            (fun r => ((r.payload.app.getD []).length, r.payload.rem))
          = [(50, none), (50, none), (20, none)]) := by
  refine ⟨⟨chunked_flatten 50 (by omega) toAdd, chunked_flatten 50 (by omega) toRemove⟩,
    ?_, ?_, ?_, by decide, by decide⟩
  · intro c hc
    rcases hc with h | h
    · exact mem_chunked 50 (by omega) toAdd c h
    · exact mem_chunked 50 (by omega) toRemove c h
  · exact ⟨_, _, rfl, labeledReqs_map_payload _ _ _ 0 _, labeledReqs_map_payload _ _ _ 0 _⟩
  · intro r hr
    have hr2 := List.mem_append.mp hr
    rcases hr2 with h | h
    · left
      have hp : r.payload ∈ (labeledReqs "Append batch " (chunked 50 toAdd).length
          (fun b => PatchPayload.mk (some b) none) 0 (chunked 50 toAdd)).map
            (fun r => r.payload) := List.mem_map_of_mem _ h
      rw [labeledReqs_map_payload] at hp
      rcases List.mem_map.mp hp with ⟨b, _, hb⟩
      rw [← hb]
      exact ⟨rfl, rfl⟩
    · right
      have hp : r.payload ∈ (labeledReqs "Remove batch " (chunked 50 toRemove).length
          (fun b => PatchPayload.mk none (some b)) 0 (chunked 50 toRemove)).map
            (fun r => r.payload) := List.mem_map_of_mem _ h
      rw [labeledReqs_map_payload] at hp
      rcases List.mem_map.mp hp with ⟨b, _, hb⟩
      rw [← hb]
      exact ⟨rfl, rfl⟩

/-- C2 witness: evaluation at a concrete pair of lists. -/
theorem updateGatewayListBatched_partitions_witness :
    ((["1.1.1.0/24", "2.2.2.0/24"] : List String).length ≤ 50
      ∧ (["1.1.1.0/24", "2.2.2.0/24"] : List String) ≠ [])
    ∧ (((⟨⟨some ["1.1.1.0/24", "2.2.2.0/24"], none⟩, "Append batch 1/1"⟩ :
          BatchRequest).payload.app.isSome = true
        ∧ (⟨⟨some ["1.1.1.0/24", "2.2.2.0/24"], none⟩, "Append batch 1/1"⟩ :
          BatchRequest).payload.rem = none)
       ∨ ((⟨⟨some ["1.1.1.0/24", "2.2.2.0/24"], none⟩, "Append batch 1/1"⟩ :
          BatchRequest).payload.app = none
        ∧ (⟨⟨some ["1.1.1.0/24", "2.2.2.0/24"], none⟩, "Append batch 1/1"⟩ :
          BatchRequest).payload.rem.isSome = true)) := by
  constructor
  · exact (updateGatewayListBatched_partitions ["1.1.1.0/24", "2.2.2.0/24"] ["3.3.3.0/24"]).2.1
      ["1.1.1.0/24", "2.2.2.0/24"] (Or.inl (by decide))
  · exact (updateGatewayListBatched_partitions ["1.1.1.0/24", "2.2.2.0/24"] ["3.3.3.0/24"]).2.2.2.1
      ⟨⟨some ["1.1.1.0/24", "2.2.2.0/24"], none⟩, "Append batch 1/1"⟩ (by decide)

/-! ## C3 -/

/-- Responses the code treats as a successful apply of the request body:
2xx transport status and a parsed body whose success flag is set. -/
def isSuccessApply (r : PatchResponse) : Bool :=
  statusOk r.status && r.parsed.any (fun b => b.success)

/-- C3: for a single chunk request, a 429 response produces one 1000 ms delay
and a re-issue of the identical payload (iterating across successive 429s,
unbounded), so n consecutive 429s followed by one successful response yield
exactly one successful apply and n delays — in particular one 429 then one
200.  Any other non-success status, an unparsable body, or a success flag of
false fails immediately (one request consumed, no delay) with the outcome
carrying the batch label, and a failed chunk aborts the remaining batches. -/
theorem updateGatewayListSingle_retry_behavior (pl : PatchPayload) (lb : String)
    (hpl : pl.app.isSome = true ∨ pl.rem.isSome = true) :
    (∀ trace, updateGatewayListSingle pl lb trace = singleAttempts pl lb trace)
    ∧ (∀ r rest, r.status = 429 →
        singleAttempts pl lb (r :: rest)
          = ((singleAttempts pl lb rest).1,
             Event.httpPatch pl :: Event.delayMs 1000 :: (singleAttempts pl lb rest).2.1,
             (singleAttempts pl lb rest).2.2))
    ∧ (∀ n r rOk b, r.status = 429 → statusOk rOk.status = true → rOk.parsed = some b →
        b.success = true →
        singleAttempts pl lb (List.replicate n r ++ [rOk])
          = (.applied,
             (List.replicate n [Event.httpPatch pl, Event.delayMs 1000]).flatten
               ++ [Event.httpPatch pl], [])
        ∧ (List.replicate n r ++ [rOk]).countP isSuccessApply = 1)
    ∧ (∀ r rest, statusOk r.status = false → r.status ≠ 429 →
        singleAttempts pl lb (r :: rest)
          = (.failed lb ("API request failed with status " ++ toString r.status),
             [Event.httpPatch pl], rest))
    ∧ (∀ r rest, statusOk r.status = true → r.parsed = none →
        singleAttempts pl lb (r :: rest)
          = (.failed lb "Failed to parse API response", [Event.httpPatch pl], rest))
    ∧ (∀ r rest b, statusOk r.status = true → r.parsed = some b → b.success = false →
        singleAttempts pl lb (r :: rest)
          = (.failed lb "Update failed", [Event.httpPatch pl], rest))
    ∧ (∀ bs trace m evs rest,
        updateGatewayListSingle pl lb trace = (.failed lb m, evs, rest) →
        runBatches (⟨pl, lb⟩ :: bs) trace = (.error m, evs, rest)) := by
  have hskip : (pl.app.isNone && pl.rem.isNone) = false := by
    rcases hpl with h | h
    · cases hap : pl.app with
      | none => rw [hap] at h; simp at h
      | some v => simp [hap]
    · cases hrm : pl.rem with
      | none => rw [hrm] at h; simp at h
      | some v => simp [hrm, Bool.and_comm]
  have h429ok : ∀ r : PatchResponse, r.status = 429 → statusOk r.status = false := by
    intro r hr
    rw [hr]
    decide
  refine ⟨?_, ?_, ?_, ?_, ?_, ?_, ?_⟩
  · intro trace
    simp [updateGatewayListSingle, hskip]
  · intro r rest hr
    have h2 : statusOk 429 = false := by decide
    simp [singleAttempts, hr, h2]
  · intro n r rOk b hr hok hparse hsucc
    induction n with
    | zero =>
      constructor
      · simp [singleAttempts, hok, hparse, hsucc]
      · simp [List.countP_cons, isSuccessApply, hok, hparse, hsucc, Option.any]
    | succ k ih =>
      rcases ih with ⟨ih1, ih2⟩
      have h2 : statusOk 429 = false := by decide
      constructor
      · simp [singleAttempts, List.replicate_succ, hr, h2, ih1]
      · rw [List.replicate_succ, List.cons_append, List.countP_cons]
        have : isSuccessApply r = false := by
          simp [isSuccessApply, h429ok r hr]
        simp [this, ih2]
  · intro r rest hok h429
    simp [singleAttempts, hok, h429]
  · intro r rest hok hparse
    simp [singleAttempts, hok, hparse]
  · intro r rest b hok hparse hsucc
    simp [singleAttempts, hok, hparse, hsucc]
  · intro bs trace m evs rest hfail
    simp [runBatches, hfail]

/-- C3 witness: one 429 then one 200 on a concrete append chunk. -/
theorem updateGatewayListSingle_retry_behavior_witness :
    singleAttempts ⟨some ["1.1.1.0/24"], none⟩ "Append batch 1/1"
        [⟨429, none⟩, ⟨200, some ⟨true⟩⟩]
      = (.applied,
         [Event.httpPatch ⟨some ["1.1.1.0/24"], none⟩, Event.delayMs 1000,
          Event.httpPatch ⟨some ["1.1.1.0/24"], none⟩], [])
    ∧ ([⟨429, none⟩, ⟨200, some ⟨true⟩⟩] : List PatchResponse).countP isSuccessApply = 1 := by
  have h := (updateGatewayListSingle_retry_behavior ⟨some ["1.1.1.0/24"], none⟩
    "Append batch 1/1" (Or.inl rfl)).2.2.1 1 ⟨429, none⟩ ⟨200, some ⟨true⟩⟩ ⟨true⟩
    rfl (by decide) rfl rfl
  rcases h with ⟨h1, h2⟩
  constructor
  · rw [show (List.replicate 1 (⟨429, none⟩ : PatchResponse) ++ [⟨200, some ⟨true⟩⟩])
        = [⟨429, none⟩, ⟨200, some ⟨true⟩⟩] from rfl] at h1
    rw [h1]
    rfl
  · exact h2

/-! ## C4 -/

def isErrResult {α : Type} : Except String α → Bool
  | .error _ => true
  | .ok _ => false

/-- Failure condition asserted by the claim for the Gateway list GET: non-2xx
transport status, unparsable body, or a parsed body whose success flag is
false. -/
def c4ClaimedFailure (r : GetResponse) : Prop :=
  statusOk r.status = false ∨ r.parsed = none
    ∨ (∃ b, r.parsed = some b ∧ b.success = false)

/-- C4 counterexample: on a 2xx response whose body parses with success flag
false, `fetchCurrentGatewayList` returns the empty list instead of failing,
so the claimed equivalence between failing and the three conditions is false
at this input. -/
theorem fetchCurrentGatewayList_success_false_counterexample :
    (fetchCurrentGatewayList ⟨200, some ⟨false, some ⟨some ["1.1.1.0/24"]⟩⟩⟩).1 = .ok []
    ∧ c4ClaimedFailure ⟨200, some ⟨false, some ⟨some ["1.1.1.0/24"]⟩⟩⟩
    ∧ ¬(isErrResult (fetchCurrentGatewayList
          ⟨200, some ⟨false, some ⟨some ["1.1.1.0/24"]⟩⟩⟩).1 = true
        ↔ c4ClaimedFailure ⟨200, some ⟨false, some ⟨some ["1.1.1.0/24"]⟩⟩⟩) := by
  refine ⟨rfl, Or.inr (Or.inr ⟨⟨false, some ⟨some ["1.1.1.0/24"]⟩⟩, rfl, rfl⟩), ?_⟩
  intro h
  have hf : isErrResult (fetchCurrentGatewayList
      ⟨200, some ⟨false, some ⟨some ["1.1.1.0/24"]⟩⟩⟩).1 = true :=
    h.mpr (Or.inr (Or.inr ⟨⟨false, some ⟨some ["1.1.1.0/24"]⟩⟩, rfl, rfl⟩))
  simp [fetchCurrentGatewayList, isErrResult, statusOk] at hf

/-- C4 amended: `fetchCurrentGatewayList` fails exactly when the transport
response is non-2xx or the body is unparsable; a parsed body with success
flag false, an absent result object, or an absent items collection yields
the valid empty list; and a success body with items present yields the raw
item values. -/
theorem fetchCurrentGatewayList_error_conditions (r : GetResponse) :
    (isErrResult (fetchCurrentGatewayList r).1 = true
      ↔ (statusOk r.status = false ∨ r.parsed = none))
    ∧ (∀ b, statusOk r.status = true → r.parsed = some b →
        ((b.success = false ∨ b.result = none
            ∨ (∃ res, b.result = some res ∧ res.items = none)) →
          (fetchCurrentGatewayList r).1 = .ok [])
        ∧ (∀ res vs, b.success = true → b.result = some res → res.items = some vs →
            (fetchCurrentGatewayList r).1 = .ok vs)) := by
  obtain ⟨st, parsed⟩ := r
  by_cases hok : statusOk st = true
  · rcases parsed with _ | ⟨bs, bres⟩
    · constructor
      · simp [fetchCurrentGatewayList, hok, isErrResult]
      · intro b _ hp
        exact absurd hp (by simp)
    · rcases bres with _ | ⟨bitems⟩
      · constructor
        · cases bs <;> simp [fetchCurrentGatewayList, hok, isErrResult]
        · intro b _ hp
          injection hp with hp
          subst hp
          constructor
          · intro _
            cases bs <;> simp [fetchCurrentGatewayList, hok]
          · intro res vs _ hres _
            exact absurd hres (by simp)
      · rcases bitems with _ | vs
        · constructor
          · cases bs <;> simp [fetchCurrentGatewayList, hok, isErrResult]
          · intro b _ hp
            injection hp with hp
            subst hp
            constructor
            · intro _
              cases bs <;> simp [fetchCurrentGatewayList, hok]
            · intro res vs2 _ hres hitems
              injection hres with hres
              subst hres
              exact absurd hitems (by simp)
        · constructor
          · cases bs <;> simp [fetchCurrentGatewayList, hok, isErrResult]
          · intro b _ hp
            injection hp with hp
            subst hp
            constructor
            · intro h
              cases bs
              · simp [fetchCurrentGatewayList, hok]
              · exfalso
                rcases h with h | h | ⟨res, hres, hitems⟩
                · exact absurd h (by simp)
                · exact absurd h (by simp)
                · injection hres with hres
                  subst hres
                  exact absurd hitems (by simp)
            · intro res vs2 hs hres hitems
              subst hs
              injection hres with hres
              subst hres
              injection hitems with hitems
              subst hitems
              simp [fetchCurrentGatewayList, hok]
  · have hok2 : statusOk st = false := Bool.eq_false_iff.mpr hok
    constructor
    · simp [fetchCurrentGatewayList, hok2, isErrResult]
    · intro b hok3 _
      exact absurd hok3 hok

/-- C4 amended witness: concrete evaluations on a failing response and on a
success response with items. -/
theorem fetchCurrentGatewayList_error_conditions_witness :
    isErrResult (fetchCurrentGatewayList ⟨500, some ⟨true, some ⟨some []⟩⟩⟩).1 = true
    ∧ (fetchCurrentGatewayList ⟨200, some ⟨true, some ⟨some ["1.1.1.0/24"]⟩⟩⟩).1
        = .ok ["1.1.1.0/24"] := by
  constructor
  · exact (fetchCurrentGatewayList_error_conditions ⟨500, some ⟨true, some ⟨some []⟩⟩⟩).1.mpr
      (Or.inl (by decide))
  · exact ((fetchCurrentGatewayList_error_conditions
        ⟨200, some ⟨true, some ⟨some ["1.1.1.0/24"]⟩⟩⟩).2
      ⟨true, some ⟨some ["1.1.1.0/24"]⟩⟩ (by decide) rfl).2 ⟨some ["1.1.1.0/24"]⟩
      ["1.1.1.0/24"] rfl rfl rfl

/-! ## C5 -/

/-- Joining groups with a separator character: left inverse of `splitOnChar`. -/
def joinSep (c : Char) : List (List Char) → List Char
  | [] => []
  | [g] => g
  | g :: gs => g ++ c :: joinSep c gs

theorem joinSep_pair (c : Char) (a p : List Char) : joinSep c [a, p] = a ++ c :: p := rfl

theorem joinSep_cons₂ (c : Char) (g h : List Char) (t : List (List Char)) :
    joinSep c (g :: h :: t) = g ++ c :: joinSep c (h :: t) := rfl

theorem splitOnChar_ne_nil (c : Char) (l : List Char) : splitOnChar c l ≠ [] := by
  cases l with
  | nil => exact fun h => List.noConfusion h
  | cons x xs =>
    simp only [splitOnChar]
    split
    · exact fun h => List.noConfusion h
    · split
      · exact fun h => List.noConfusion h
      · exact fun h => List.noConfusion h

theorem joinSep_splitOnChar (c : Char) (l : List Char) :
    joinSep c (splitOnChar c l) = l := by
  induction l with
  | nil => rfl
  | cons x xs ih =>
    simp only [splitOnChar]
    by_cases hx : x = c
    · rw [if_pos hx]
      cases hs : splitOnChar c xs with
      | nil => exact absurd hs (splitOnChar_ne_nil c xs)
      | cons g gs =>
        rw [hs] at ih
        rw [joinSep_cons₂, hx, ih]
        rfl
    · rw [if_neg hx]
      cases hs : splitOnChar c xs with
      | nil => exact absurd hs (splitOnChar_ne_nil c xs)
      | cons g gs =>
        rw [hs] at ih
        cases gs with
        | nil => simpa [joinSep] using congrArg (x :: ·) ih
        | cons g2 t =>
          rw [joinSep_cons₂]
          rw [joinSep_cons₂] at ih
          simpa [List.cons_append] using congrArg (x :: ·) ih

theorem not_mem_of_mem_splitOnChar (c : Char) (l : List Char) :
    ∀ g ∈ splitOnChar c l, c ∉ g := by
  induction l with
  | nil =>
    intro g hg
    simp only [splitOnChar, List.mem_singleton] at hg
    subst hg
    exact List.not_mem_nil c
  | cons x xs ih =>
    intro g hg
    simp only [splitOnChar] at hg
    by_cases hx : x = c
    · rw [if_pos hx] at hg
      rcases List.mem_cons.mp hg with h | h
      · subst h; exact List.not_mem_nil c
      · exact ih g h
    · rw [if_neg hx] at hg
      cases hs : splitOnChar c xs with
      | nil => exact absurd hs (splitOnChar_ne_nil c xs)
      | cons g0 gs =>
        rw [hs] at hg
        rcases List.mem_cons.mp hg with h | h
        · subst h
          intro hcm
          rcases List.mem_cons.mp hcm with h2 | h2
          · exact hx h2.symm
          · exact ih g0 (hs ▸ List.mem_cons_self g0 gs) h2
        · exact ih g (hs ▸ List.mem_cons_of_mem g0 h)

theorem splitOnChar_of_not_mem (c : Char) (l : List Char) (h : c ∉ l) :
    splitOnChar c l = [l] := by
  induction l with
  | nil => rfl
  | cons x xs ih =>
    have hx : x ≠ c := fun he => h (he ▸ List.mem_cons_self x xs)
    have hxs : c ∉ xs := fun hm => h (List.mem_cons_of_mem x hm)
    simp only [splitOnChar, if_neg hx, ih hxs]

theorem splitOnChar_append (c : Char) (u v : List Char) (h : c ∉ u) :
    splitOnChar c (u ++ c :: v) = u :: splitOnChar c v := by
  induction u with
  | nil => simp [splitOnChar]
  | cons x u1 ih =>
    have hx : x ≠ c := fun he => h (he ▸ List.mem_cons_self x u1)
    have hu1 : c ∉ u1 := fun hm => h (List.mem_cons_of_mem x hm)
    rw [List.cons_append]
    simp only [splitOnChar, if_neg hx, ih hu1]

theorem splitOnChar_eq_pair (c : Char) (l a p : List Char) :
    splitOnChar c l = [a, p] ↔ (l = a ++ c :: p ∧ c ∉ a ∧ c ∉ p) := by
  constructor
  · intro h
    have h1 : l = a ++ c :: p := by
      have := joinSep_splitOnChar c l
      rw [h, joinSep_pair] at this
      exact this.symm
    have h2 : c ∉ a := not_mem_of_mem_splitOnChar c l a (h ▸ List.mem_cons_self a [p])
    have h3 : c ∉ p :=
      not_mem_of_mem_splitOnChar c l p (h ▸ List.mem_cons_of_mem a (List.mem_cons_self p []))
    exact ⟨h1, h2, h3⟩
  · rintro ⟨h1, h2, h3⟩
    rw [h1, splitOnChar_append c a p h2, splitOnChar_of_not_mem c p h3]

/-! ### Grammar predicates for the CIDR claim -/

/-- A run of `lo` to `hi` ASCII digits, stated propositionally. -/
def DigitRunP (lo hi : Nat) (l : List Char) : Prop :=
  lo ≤ l.length ∧ l.length ≤ hi ∧ ∀ ch ∈ l, ch.isDigit = true

/-- The IPv4 alternative of the grammar: dotted quad, `/`, 1-2 digit length. -/
def IPv4SlashP (l : List Char) : Prop :=
  ∃ a b c d p, l = a ++ '.' :: (b ++ '.' :: (c ++ '.' :: (d ++ '/' :: p)))
    ∧ DigitRunP 1 3 a ∧ DigitRunP 1 3 b ∧ DigitRunP 1 3 c ∧ DigitRunP 1 3 d
    ∧ DigitRunP 1 2 p

/-- The second alternative as the code implements it: a non-empty group over
the characters `[0-9a-fA-F:]` (a colon is allowed but NOT required), `/`,
1-3 digit length. -/
def HexSlashP (l : List Char) : Prop :=
  ∃ a p, l = a ++ '/' :: p ∧ 1 ≤ a.length ∧ (∀ ch ∈ a, isHexColonChar ch = true)
    ∧ DigitRunP 1 3 p

/-- The second alternative as the claim words it: a COLON-CONTAINING
hexadecimal group, `/`, 1-3 digit length. -/
def ClaimHexSlashP (l : List Char) : Prop :=
  ∃ a p, l = a ++ '/' :: p ∧ 1 ≤ a.length ∧ (∀ ch ∈ a, isHexColonChar ch = true)
    ∧ ':' ∈ a ∧ DigitRunP 1 3 p

theorem isDigitRun_iff (lo hi : Nat) (l : List Char) :
    isDigitRun lo hi l = true ↔ DigitRunP lo hi l := by
  simp [isDigitRun, DigitRunP, List.all_eq_true, and_assoc]

theorem isOctetRun_iff (l : List Char) : isOctetRun l = true ↔ DigitRunP 1 3 l := by
  simp [isOctetRun, DigitRunP, List.all_eq_true, and_assoc]

theorem digit_run_not_mem (lo hi : Nat) (l : List Char) (h : DigitRunP lo hi l)
    (c : Char) (hc : c.isDigit = false) : c ∉ l := by
  intro hm
  have := h.2.2 c hm
  rw [hc] at this
  exact Bool.noConfusion this

/-- C5 counterexample: `123/456` is accepted by the code (all-digit strings
lie inside the `[0-9a-fA-F:]+` class with no colon needed, and `456` is a
valid 3-digit length), but it matches neither alternative of the grammar as
the claim words it, so the claimed equivalence is false at this input. -/
theorem isValidCIDR_colonless_counterexample :
    isValidCIDR "123/456" = true
    ∧ ¬(IPv4SlashP ("123/456" : String).data ∨ ClaimHexSlashP ("123/456" : String).data) := by
  refine ⟨by decide, ?_⟩
  intro h
  rcases h with h | h
  · rcases h with ⟨a, b, c, d, p, heq, _⟩
    have hdot : '.' ∈ ("123/456" : String).data := by
      rw [heq]
      simp
    exact absurd hdot (by decide)
  · rcases h with ⟨a, p, heq, _, _, hcolon, _⟩
    have hc : ':' ∈ ("123/456" : String).data := by
      rw [heq]
      exact List.mem_append.mpr (Or.inl hcolon)
    exact absurd hc (by decide)

theorem splitOnChar_eq_quad (c : Char) (l a b cc d : List Char) :
    splitOnChar c l = [a, b, cc, d] ↔
      (l = a ++ c :: (b ++ c :: (cc ++ c :: d)) ∧ c ∉ a ∧ c ∉ b ∧ c ∉ cc ∧ c ∉ d) := by
  constructor
  · intro h
    have h1 : l = a ++ c :: (b ++ c :: (cc ++ c :: d)) := by
      have hj := joinSep_splitOnChar c l
      rw [h, joinSep_cons₂, joinSep_cons₂, joinSep_pair] at hj
      exact hj.symm
    refine ⟨h1, ?_, ?_, ?_, ?_⟩
    · exact not_mem_of_mem_splitOnChar c l a (h ▸ (by simp))
    · exact not_mem_of_mem_splitOnChar c l b (h ▸ (by simp))
    · exact not_mem_of_mem_splitOnChar c l cc (h ▸ (by simp))
    · exact not_mem_of_mem_splitOnChar c l d (h ▸ (by simp))
  · rintro ⟨h1, ha, hb, hc, hd⟩
    rw [h1, splitOnChar_append c a _ ha, splitOnChar_append c b _ hb,
      splitOnChar_append c cc _ hc, splitOnChar_of_not_mem c d hd]

theorem isDottedQuad_iff (l : List Char) :
    isDottedQuad l = true ↔
      ∃ a b c d, l = a ++ '.' :: (b ++ '.' :: (c ++ '.' :: d))
        ∧ DigitRunP 1 3 a ∧ DigitRunP 1 3 b ∧ DigitRunP 1 3 c ∧ DigitRunP 1 3 d := by
  constructor
  · intro h
    unfold isDottedQuad at h
    split at h
    next a b c d hq =>
      obtain ⟨h1, _, _, _, _⟩ := (splitOnChar_eq_quad '.' l a b c d).mp hq
      simp only [Bool.and_eq_true] at h
      exact ⟨a, b, c, d, h1, (isOctetRun_iff a).mp h.1.1.1, (isOctetRun_iff b).mp h.1.1.2,
        (isOctetRun_iff c).mp h.1.2, (isOctetRun_iff d).mp h.2⟩
    next =>
      exact absurd h (by simp)
  · rintro ⟨a, b, c, d, h1, ha, hb, hc, hd⟩
    have hq : splitOnChar '.' l = [a, b, c, d] :=
      (splitOnChar_eq_quad '.' l a b c d).mpr
        ⟨h1, digit_run_not_mem _ _ _ ha '.' (by decide),
         digit_run_not_mem _ _ _ hb '.' (by decide),
         digit_run_not_mem _ _ _ hc '.' (by decide),
         digit_run_not_mem _ _ _ hd '.' (by decide)⟩
    unfold isDottedQuad
    rw [hq]
    simp [Bool.and_eq_true, isOctetRun_iff, ha, hb, hc, hd]

/-- C5 amended: `isValidCIDR` accepts a string exactly when it is an IPv4
dotted-quad followed by `/` and a 1-2 digit length, or a non-empty group of
hexadecimal digits AND/OR colons (a colon is permitted, not required)
followed by `/` and a 1-3 digit length; it is total (never raises) and any
other input yields false. -/
theorem isValidCIDR_grammar (s : String) :
    isValidCIDR s = true ↔ (IPv4SlashP s.data ∨ HexSlashP s.data) := by
  constructor
  · intro h
    unfold isValidCIDR at h
    split at h
    next addr plen hq =>
      obtain ⟨h1, _, _⟩ := (splitOnChar_eq_pair '/' s.data addr plen).mp hq
      cases (Bool.or_eq_true _ _).mp h with
      | inl hl =>
        rw [Bool.and_eq_true] at hl
        obtain ⟨a, b, c, d, haddr, ha, hb, hc, hd⟩ := (isDottedQuad_iff addr).mp hl.1
        left
        refine ⟨a, b, c, d, plen, ?_, ha, hb, hc, hd, (isDigitRun_iff 1 2 plen).mp hl.2⟩
        rw [h1, haddr]
        simp [List.append_assoc, List.cons_append]
      | inr hr =>
        rw [Bool.and_eq_true, Bool.and_eq_true] at hr
        right
        exact ⟨addr, plen, h1, by simpa using hr.1.1,
          List.all_eq_true.mp hr.1.2, (isDigitRun_iff 1 3 plen).mp hr.2⟩
    next =>
      exact absurd h (by simp)
  · intro h
    rcases h with ⟨a, b, c, d, p, heq, ha, hb, hc, hd, hp⟩ | ⟨a, p, heq, hlen, hall, hp⟩
    · have hslashAddr : '/' ∉ a ++ '.' :: (b ++ '.' :: (c ++ '.' :: d)) := by
        intro hm
        rcases List.mem_append.mp hm with h | h
        · exact digit_run_not_mem _ _ _ ha '/' (by decide) h
        · rcases List.mem_cons.mp h with h | h
          · exact absurd h (by decide)
          · rcases List.mem_append.mp h with h | h
            · exact digit_run_not_mem _ _ _ hb '/' (by decide) h
            · rcases List.mem_cons.mp h with h | h
              · exact absurd h (by decide)
              · rcases List.mem_append.mp h with h | h
                · exact digit_run_not_mem _ _ _ hc '/' (by decide) h
                · rcases List.mem_cons.mp h with h | h
                  · exact absurd h (by decide)
                  · exact digit_run_not_mem _ _ _ hd '/' (by decide) h
      have hslashP : '/' ∉ p := digit_run_not_mem _ _ _ hp '/' (by decide)
      have hsd : s.data = (a ++ '.' :: (b ++ '.' :: (c ++ '.' :: d))) ++ '/' :: p := by
        rw [heq]
        simp [List.append_assoc, List.cons_append]
      have hq : splitOnChar '/' s.data = [a ++ '.' :: (b ++ '.' :: (c ++ '.' :: d)), p] := by
        rw [hsd, splitOnChar_append _ _ _ hslashAddr, splitOnChar_of_not_mem _ _ hslashP]
      have hquad : isDottedQuad (a ++ '.' :: (b ++ '.' :: (c ++ '.' :: d))) = true :=
        (isDottedQuad_iff _).mpr ⟨a, b, c, d, rfl, ha, hb, hc, hd⟩
      unfold isValidCIDR
      rw [hq]
      simp [hquad, (isDigitRun_iff 1 2 p).mpr hp]
    · have hslashA : '/' ∉ a := by
        intro hm
        have := hall '/' hm
        exact absurd this (by decide)
      have hslashP : '/' ∉ p := digit_run_not_mem _ _ _ hp '/' (by decide)
      have hq : splitOnChar '/' s.data = [a, p] := by
        rw [heq, splitOnChar_append _ _ _ hslashA, splitOnChar_of_not_mem _ _ hslashP]
      unfold isValidCIDR
      rw [hq]
      simp [hlen, List.all_eq_true.mpr hall, (isDigitRun_iff 1 3 p).mpr hp]

/-! ## Event-shape helper lemmas for the orchestrator claims -/

theorem fetchDesiredPrefixes_events (db : Db) (table : String) :
    (fetchDesiredPrefixes db table).2 = [Event.dbQuery (desiredQuerySql table)]
    ∨ (fetchDesiredPrefixes db table).2
        = [Event.dbQuery (desiredQuerySql table), Event.dbQuery tableCheckSql]
    ∨ (fetchDesiredPrefixes db table).2
        = [Event.dbQuery (desiredQuerySql table), Event.dbQuery tableCheckSql,
           Event.dbQuery (sampleSql table), Event.dbQuery (activeSql table)] := by
  obtain ⟨lr, ds, de, dr, te⟩ := db
  cases ds
  · left; rfl
  · rcases dr with _ | rows
    · left; rfl
    · rcases rows with _ | ⟨r0, rest⟩
      · cases te
        · right; left; rfl
        · right; right; rfl
      · left; rfl

theorem fetchDesiredPrefixes_no_write_no_patch (db : Db) (table : String) :
    ∀ e ∈ (fetchDesiredPrefixes db table).2, e.isDbWrite = false ∧ e.isPatch = false := by
  intro e he
  rcases fetchDesiredPrefixes_events db table with h | h | h <;> rw [h] at he
  · simp at he
    subst he
    exact ⟨rfl, rfl⟩
  · simp at he
    rcases he with rfl | rfl <;> exact ⟨rfl, rfl⟩
  · simp at he
    rcases he with rfl | rfl | rfl | rfl <;> exact ⟨rfl, rfl⟩

theorem fetchCurrentGatewayList_events (r : GetResponse) :
    (fetchCurrentGatewayList r).2 = [Event.httpGet] := by
  obtain ⟨st, parsed⟩ := r
  by_cases hok : statusOk st = true
  · rcases parsed with _ | ⟨bs, bres⟩
    · simp [fetchCurrentGatewayList, hok]
    · rcases bres with _ | ⟨bitems⟩
      · cases bs <;> simp [fetchCurrentGatewayList, hok]
      · rcases bitems with _ | vs <;> cases bs <;> simp [fetchCurrentGatewayList, hok]
  · simp [fetchCurrentGatewayList, Bool.eq_false_iff.mpr hok]

theorem singleAttempts_no_write (pl : PatchPayload) (lb : String) :
    ∀ trace, ∀ e ∈ (singleAttempts pl lb trace).2.1, e.isDbWrite = false := by
  intro trace
  induction trace with
  | nil =>
    intro e he
    simp [singleAttempts] at he
    subst he
    rfl
  | cons r rest ih =>
    intro e he
    unfold singleAttempts at he
    by_cases hok : statusOk r.status = true
    · rw [if_pos hok] at he
      rcases hp : r.parsed with _ | b
      · rw [hp] at he
        simp at he
        subst he
        rfl
      · rw [hp] at he
        obtain ⟨bsucc⟩ := b
        cases bsucc <;> simp at he <;> subst he <;> rfl
    · rw [if_neg hok] at he
      by_cases h429 : r.status = 429
      · rw [if_pos h429] at he
        rcases hrec : singleAttempts pl lb rest with ⟨o, evs, rem⟩
        rw [hrec] at he
        simp at he
        rcases he with rfl | rfl | he
        · rfl
        · rfl
        · exact ih e (by rw [hrec]; exact he)
      · rw [if_neg h429] at he
        simp at he
        subst he
        rfl

theorem updateGatewayListSingle_no_write (pl : PatchPayload) (lb : String)
    (trace : List PatchResponse) :
    ∀ e ∈ (updateGatewayListSingle pl lb trace).2.1, e.isDbWrite = false := by
  intro e he
  unfold updateGatewayListSingle at he
  split at he
  · simp at he
  · exact singleAttempts_no_write pl lb trace e he

theorem runBatches_no_write (reqs : List BatchRequest) :
    ∀ trace, ∀ e ∈ (runBatches reqs trace).2.1, e.isDbWrite = false := by
  induction reqs with
  | nil =>
    intro trace e he
    simp [runBatches] at he
  | cons b bs ih =>
    intro trace e he
    unfold runBatches at he
    rcases hs : updateGatewayListSingle b.payload b.batchLabel trace with ⟨o, evs, rest⟩
    rw [hs] at he
    cases o with
    | applied =>
      dsimp only at he
      rcases hr : runBatches bs rest with ⟨r2, evs2, rest2⟩
      rw [hr] at he
      dsimp only at he
      rw [List.mem_append] at he
      rcases he with he | he
      · exact updateGatewayListSingle_no_write b.payload b.batchLabel trace e
          (by rw [hs]; exact he)
      · exact ih rest e (by rw [hr]; exact he)
    | skipped =>
      dsimp only at he
      rcases hr : runBatches bs rest with ⟨r2, evs2, rest2⟩
      rw [hr] at he
      dsimp only at he
      rw [List.mem_append] at he
      rcases he with he | he
      · exact updateGatewayListSingle_no_write b.payload b.batchLabel trace e
          (by rw [hs]; exact he)
      · exact ih rest e (by rw [hr]; exact he)
    | failed lb2 m =>
      simp at he
      exact updateGatewayListSingle_no_write b.payload b.batchLabel trace e
        (by rw [hs]; exact he)
    | exhausted =>
      simp at he
      exact updateGatewayListSingle_no_write b.payload b.batchLabel trace e
        (by rw [hs]; exact he)

theorem testGatewayListUpdate_no_write (v : String) (trace : List PatchResponse) :
    ∀ e ∈ (testGatewayListUpdate v trace).2.1, e.isDbWrite = false := by
  intro e he
  cases trace with
  | nil =>
    simp [testGatewayListUpdate] at he
    subst he
    rfl
  | cons r rest =>
    by_cases hok : statusOk r.status = true
    · rcases hp : r.parsed with _ | b
      · simp [testGatewayListUpdate, hok, hp] at he
        subst he
        rfl
      · obtain ⟨bsucc⟩ := b
        cases bsucc <;> simp [testGatewayListUpdate, hok, hp] at he <;> subst he <;> rfl
    · simp [testGatewayListUpdate, Bool.eq_false_iff.mpr hok] at he
      subst he
      rfl

theorem updateSyncedPrefixesEvents_write (vals : List String) :
    ∀ e ∈ updateSyncedPrefixesEvents vals, e.isDbWrite = true := by
  intro e he
  unfold updateSyncedPrefixesEvents at he
  rcases List.mem_cons.mp he with rfl | h
  · rfl
  · split at h
    · simp at h
    · rcases List.mem_map.mp h with ⟨c, _, rfl⟩
      rfl

theorem isDbWrite_not_patch (e : Event) (h : e.isDbWrite = true) : e.isPatch = false := by
  cases e <;> first | rfl | exact Bool.noConfusion h

/-! ## C6 -/

/-- C6: when the desired-prefix query succeeds with zero rows, the sync run
fails before any remote PATCH (or even the GET) is issued and before any
local write; when the table-existence diagnostic confirms the table, the
error is the "no active prefixes found" data-access failure and the event
trail is exactly the main query followed by the three diagnostic queries. -/
theorem syncASN_zero_rows_fails_before_patch (asn : String) (env : Env) (db : Db)
    (g : GetResponse) (trace : List PatchResponse)
    (hm : matchASN asn = true) (hdb : env.hasDB = true) (hc : env.credsOk = true)
    (hs : db.desiredSuccess = true) (hr : db.desiredResults = some []) :
    (∃ m, (syncASN asn env db g trace).1 = .error m)
    ∧ (∀ e ∈ (syncASN asn env db g trace).2, e.isPatch = false ∧ e.isDbWrite = false)
    ∧ (db.tableExists = true →
        syncASN asn env db g trace
          = (.error (wrapDesiredErr asn (noActiveMsg asn)),
             [Event.dbQuery lastRunSql, Event.dbQuery (desiredQuerySql asn),
              Event.dbQuery tableCheckSql, Event.dbQuery (sampleSql asn),
              Event.dbQuery (activeSql asn)])) := by
  cases hte : db.tableExists
  · have hfd : fetchDesiredPrefixes db asn
        = (.error (wrapDesiredErr asn ("Table " ++ asn ++ " does not exist in the database")),
           [Event.dbQuery (desiredQuerySql asn), Event.dbQuery tableCheckSql]) := by
      simp [fetchDesiredPrefixes, hs, hr, hte]
    have hsync : syncASN asn env db g trace
        = (.error (wrapDesiredErr asn ("Table " ++ asn ++ " does not exist in the database")),
           [Event.dbQuery lastRunSql, Event.dbQuery (desiredQuerySql asn),
            Event.dbQuery tableCheckSql]) := by
      simp [syncASN, hm, hdb, hc, hfd]
    refine ⟨⟨_, by rw [hsync]⟩, ?_, ?_⟩
    · intro e he
      rw [hsync] at he
      simp at he
      rcases he with rfl | rfl | rfl <;> exact ⟨rfl, rfl⟩
    · intro h
      simp [hte] at h
  · have hfd : fetchDesiredPrefixes db asn
        = (.error (wrapDesiredErr asn (noActiveMsg asn)),
           [Event.dbQuery (desiredQuerySql asn), Event.dbQuery tableCheckSql,
            Event.dbQuery (sampleSql asn), Event.dbQuery (activeSql asn)]) := by
      simp [fetchDesiredPrefixes, hs, hr, hte]
    have hsync : syncASN asn env db g trace
        = (.error (wrapDesiredErr asn (noActiveMsg asn)),
           [Event.dbQuery lastRunSql, Event.dbQuery (desiredQuerySql asn),
            Event.dbQuery tableCheckSql, Event.dbQuery (sampleSql asn),
            Event.dbQuery (activeSql asn)]) := by
      simp [syncASN, hm, hdb, hc, hfd]
    refine ⟨⟨_, by rw [hsync]⟩, ?_, fun _ => hsync⟩
    intro e he
    rw [hsync] at he
    simp at he
    rcases he with rfl | rfl | rfl | rfl | rfl <;> exact ⟨rfl, rfl⟩

/-- C6 witness: a concrete run over a database with zero active rows. -/
theorem syncASN_zero_rows_fails_before_patch_witness :
    syncASN "AS1" ⟨true, some "a", some "l", some "e", some "k"⟩
        ⟨none, true, none, some [], true⟩ ⟨200, some ⟨true, some ⟨some []⟩⟩⟩ []
      = (.error (wrapDesiredErr "AS1" (noActiveMsg "AS1")),
         [Event.dbQuery lastRunSql, Event.dbQuery (desiredQuerySql "AS1"),
          Event.dbQuery tableCheckSql, Event.dbQuery (sampleSql "AS1"),
          Event.dbQuery (activeSql "AS1")]) :=
  (syncASN_zero_rows_fails_before_patch "AS1" ⟨true, some "a", some "l", some "e", some "k"⟩
    ⟨none, true, none, some [], true⟩ ⟨200, some ⟨true, some ⟨some []⟩⟩⟩ []
    (by decide) rfl rfl rfl rfl).2.2 rfl

/-! ## C7 -/

/-- C7: a string that does not match the anchored `AS` digits pattern is
rejected with no I/O events at all — no store query and no remote API call —
and the interpolated table-name query can only ever appear in a run whose
ASN matched the pattern. -/
theorem syncASN_invalid_asn_no_io (asn : String) (env : Env) (db : Db) (g : GetResponse)
    (trace : List PatchResponse) :
    (matchASN asn = false → syncASN asn env db g trace = (.error "Invalid ASN format", []))
    ∧ (∀ e ∈ (syncASN asn env db g trace).2,
        e = Event.dbQuery (desiredQuerySql asn) → matchASN asn = true) := by
  constructor
  · intro hm
    simp [syncASN, hm]
  · intro e he _
    by_cases hm : matchASN asn = true
    · exact hm
    · have hm2 : matchASN asn = false := Bool.eq_false_iff.mpr hm
      have hsync : syncASN asn env db g trace = (.error "Invalid ASN format", []) := by
        simp [syncASN, hm2]
      rw [hsync] at he
      simp at he

/-- C7 witness: a concrete malformed ASN is rejected with an empty event
trail. -/
theorem syncASN_invalid_asn_no_io_witness :
    syncASN "AS12x" ⟨true, some "a", some "l", some "e", some "k"⟩
        ⟨none, true, none, some ["1.1.1.0/24"], true⟩ ⟨200, some ⟨true, some ⟨some []⟩⟩⟩ []
      = (.error "Invalid ASN format", []) :=
  (syncASN_invalid_asn_no_io "AS12x" ⟨true, some "a", some "l", some "e", some "k"⟩
    ⟨none, true, none, some ["1.1.1.0/24"], true⟩ ⟨200, some ⟨true, some ⟨some []⟩⟩⟩ []).1
    (by decide)

/-! ## C8 -/

theorem updateGatewayListBatched_no_write (tA tR : List String) (bs : Nat)
    (trace : List PatchResponse) :
    ∀ e ∈ (updateGatewayListBatched tA tR bs trace).2.1, e.isDbWrite = false :=
  runBatches_no_write (batchRequests tA tR bs) trace

/-- Every run of the orchestrator either fails with an event trail that
contains no local write, or succeeds with a trail that is a write-free part
followed by a write-only tail. -/
theorem syncASN_shape (asn : String) (env : Env) (db : Db) (g : GetResponse)
    (trace : List PatchResponse) :
    (∃ m evs, syncASN asn env db g trace = (.error m, evs)
       ∧ ∀ e ∈ evs, e.isDbWrite = false)
    ∨ (∃ s P W, syncASN asn env db g trace = (.ok s, P ++ W)
       ∧ (∀ e ∈ P, e.isDbWrite = false) ∧ (∀ e ∈ W, e.isDbWrite = true)) := by
  by_cases hm : matchASN asn = true
  case neg =>
    exact Or.inl ⟨"Invalid ASN format", [],
      by simp [syncASN, Bool.eq_false_iff.mpr hm], by simp⟩
  by_cases hdb : env.hasDB = true
  case neg =>
    exact Or.inl ⟨"Database not initialized", [],
      by simp [syncASN, hm, Bool.eq_false_iff.mpr hdb], by simp⟩
  by_cases hc : env.credsOk = true
  case neg =>
    exact Or.inl ⟨"Missing Cloudflare API credentials", [],
      by simp [syncASN, hm, hdb, Bool.eq_false_iff.mpr hc], by simp⟩
  rcases hfd : fetchDesiredPrefixes db asn with ⟨fdres, fdevs⟩
  have hfdnw : ∀ e ∈ fdevs, e.isDbWrite = false := by
    intro e he
    exact (fetchDesiredPrefixes_no_write_no_patch db asn e (by rw [hfd]; exact he)).1
  cases fdres with
  | error m =>
    refine Or.inl ⟨m, Event.dbQuery lastRunSql :: fdevs, by simp [syncASN, hm, hdb, hc, hfd], ?_⟩
    intro e he
    rcases List.mem_cons.mp he with rfl | he
    · rfl
    · exact hfdnw e he
  | ok desired =>
    rcases hfc : fetchCurrentGatewayList g with ⟨fcres, fcevs⟩
    have hfcevs : fcevs = [Event.httpGet] := by
      have := fetchCurrentGatewayList_events g
      rw [hfc] at this
      exact this
    subst hfcevs
    cases fcres with
    | error m =>
      refine Or.inl ⟨m, Event.dbQuery lastRunSql :: fdevs ++ [Event.httpGet],
        by simp [syncASN, hm, hdb, hc, hfd, hfc], ?_⟩
      intro e he
      rcases List.mem_append.mp he with he | he
      · rcases List.mem_cons.mp he with rfl | he
        · rfl
        · exact hfdnw e he
      · rw [List.mem_singleton] at he
        subst he
        rfl
    | ok existing =>
      by_cases hval : ((validDesiredOf desired).isEmpty && !desired.isEmpty) = true
      case pos =>
        refine Or.inl ⟨"No valid prefixes after filtering; check prefix format",
          Event.dbQuery lastRunSql :: fdevs ++ [Event.httpGet],
          by simp [syncASN, hm, hdb, hc, hfd, hfc, hval], ?_⟩
        intro e he
        rcases List.mem_append.mp he with he | he
        · rcases List.mem_cons.mp he with rfl | he
          · rfl
          · exact hfdnw e he
        · rw [List.mem_singleton] at he
          subst he
          rfl
      case neg =>
        have hval2 : ((validDesiredOf desired).isEmpty && !desired.isEmpty) = false :=
          Bool.eq_false_iff.mpr hval
        rcases hub : updateGatewayListBatched (computeDiff (validDesiredOf desired) existing).1
            (computeDiff (validDesiredOf desired) existing).2 50 trace with ⟨ubres, ubevs, ubrest⟩
        have hubnw : ∀ e ∈ ubevs, e.isDbWrite = false := by
          intro e he
          exact updateGatewayListBatched_no_write
            (computeDiff (validDesiredOf desired) existing).1
            (computeDiff (validDesiredOf desired) existing).2 50 trace e
            (by rw [hub]; exact he)
        cases ubres with
        | error m =>
          refine Or.inl ⟨m, (Event.dbQuery lastRunSql :: fdevs ++ [Event.httpGet]) ++ ubevs,
            by simp [syncASN, hm, hdb, hc, hfd, hfc, hval2, hub], ?_⟩
          intro e he
          rcases List.mem_append.mp he with he | he
          · rcases List.mem_append.mp he with he | he
            · rcases List.mem_cons.mp he with rfl | he
              · rfl
              · exact hfdnw e he
            · rw [List.mem_singleton] at he
              subst he
              rfl
          · exact hubnw e he
        | ok u =>
          cases hta : (computeDiff (validDesiredOf desired) existing).1 with
          | nil =>
            rw [hta] at hub
            refine Or.inr ⟨(0, (computeDiff (validDesiredOf desired) existing).2.length),
              (Event.dbQuery lastRunSql :: fdevs ++ [Event.httpGet]) ++ ubevs,
              updateSyncedPrefixesEvents (validDesiredOf desired)
                ++ [Event.dbWrite recordSyncSql],
              by simp [syncASN, hm, hdb, hc, hfd, hfc, hval2, hub, hta], ?_, ?_⟩
            · intro e he
              rcases List.mem_append.mp he with he | he
              · rcases List.mem_append.mp he with he | he
                · rcases List.mem_cons.mp he with rfl | he
                  · rfl
                  · exact hfdnw e he
                · rw [List.mem_singleton] at he
                  subst he
                  rfl
              · exact hubnw e he
            · intro e he
              rcases List.mem_append.mp he with he | he
              · exact updateSyncedPrefixesEvents_write _ e he
              · rw [List.mem_singleton] at he
                subst he
                rfl
          | cons v vs =>
            rw [hta] at hub
            rcases htest : testGatewayListUpdate v ubrest with ⟨tres, tevs, trest⟩
            have htnw : ∀ e ∈ tevs, e.isDbWrite = false := by
              intro e he
              exact testGatewayListUpdate_no_write v ubrest e (by rw [htest]; exact he)
            cases tres with
            | error m =>
              refine Or.inl ⟨m,
                ((Event.dbQuery lastRunSql :: fdevs ++ [Event.httpGet]) ++ ubevs) ++ tevs,
                by simp [syncASN, hm, hdb, hc, hfd, hfc, hval2, hub, hta, htest], ?_⟩
              intro e he
              rcases List.mem_append.mp he with he | he
              · rcases List.mem_append.mp he with he | he
                · rcases List.mem_append.mp he with he | he
                  · rcases List.mem_cons.mp he with rfl | he
                    · rfl
                    · exact hfdnw e he
                  · rw [List.mem_singleton] at he
                    subst he
                    rfl
                · exact hubnw e he
              · exact htnw e he
            | ok u2 =>
              refine Or.inr ⟨((v :: vs).length,
                  (computeDiff (validDesiredOf desired) existing).2.length),
                ((Event.dbQuery lastRunSql :: fdevs ++ [Event.httpGet]) ++ ubevs) ++ tevs,
                updateSyncedPrefixesEvents (validDesiredOf desired)
                  ++ [Event.dbWrite recordSyncSql],
                by simp [syncASN, hm, hdb, hc, hfd, hfc, hval2, hub, hta, htest], ?_, ?_⟩
              · intro e he
                rcases List.mem_append.mp he with he | he
                · rcases List.mem_append.mp he with he | he
                  · rcases List.mem_append.mp he with he | he
                    · rcases List.mem_cons.mp he with rfl | he
                      · rfl
                      · exact hfdnw e he
                    · rw [List.mem_singleton] at he
                      subst he
                      rfl
                  · exact hubnw e he
                · exact htnw e he
              · intro e he
                rcases List.mem_append.mp he with he | he
                · exact updateSyncedPrefixesEvents_write _ e he
                · rw [List.mem_singleton] at he
                  subst he
                  rfl

/-- C8: local persistence happens only after the remote stage: the event
trail of every run splits into a write-free part followed by a patch-free
tail, where a non-empty tail of writes only occurs on a fully successful
run; and any failed run (in particular one whose remote batch failed)
performs no local write at all. -/
theorem syncASN_persistence_after_batches (asn : String) (env : Env) (db : Db)
    (g : GetResponse) (trace : List PatchResponse) :
    (∃ P W, (syncASN asn env db g trace).2 = P ++ W
      ∧ (∀ e ∈ P, e.isDbWrite = false)
      ∧ (∀ e ∈ W, e.isPatch = false)
      ∧ (W ≠ [] → ∃ s, (syncASN asn env db g trace).1 = .ok s))
    ∧ (∀ m, (syncASN asn env db g trace).1 = .error m →
        ∀ e ∈ (syncASN asn env db g trace).2, e.isDbWrite = false) := by
  rcases syncASN_shape asn env db g trace with ⟨m, evs, heq, hnw⟩ | ⟨s, P, W, heq, hP, hW⟩
  · constructor
    · refine ⟨evs, [], by rw [heq, List.append_nil], hnw, by simp, ?_⟩
      intro h
      exact absurd rfl h
    · intro m2 _ e he
      rw [heq] at he
      exact hnw e he
  · constructor
    · refine ⟨P, W, by rw [heq], hP, ?_, ?_⟩
      · intro e he
        exact isDbWrite_not_patch e (hW e he)
      · intro _
        exact ⟨s, by rw [heq]⟩
    · intro m2 hm2 e he
      rw [heq] at hm2
      exact Except.noConfusion hm2

/-- C8 witness: a concrete fully successful run does reach persistence, so
its result is a success. -/
theorem syncASN_persistence_after_batches_witness :
    ∃ s, (syncASN "AS1" ⟨true, some "a", some "l", some "e", some "k"⟩
        ⟨none, true, none, some ["1.1.1.0/24"], true⟩ ⟨200, some ⟨true, some ⟨some []⟩⟩⟩
        [⟨200, some ⟨true⟩⟩, ⟨200, some ⟨true⟩⟩]).1 = .ok s := by
  obtain ⟨⟨P, W, heq, hP, _, himp⟩, _⟩ :=
    syncASN_persistence_after_batches "AS1" ⟨true, some "a", some "l", some "e", some "k"⟩
      ⟨none, true, none, some ["1.1.1.0/24"], true⟩ ⟨200, some ⟨true, some ⟨some []⟩⟩⟩
      [⟨200, some ⟨true⟩⟩, ⟨200, some ⟨true⟩⟩]
  apply himp
  intro hWnil
  rw [hWnil, List.append_nil] at heq
  have hmem : Event.dbWrite recordSyncSql
      ∈ (syncASN "AS1" ⟨true, some "a", some "l", some "e", some "k"⟩
        ⟨none, true, none, some ["1.1.1.0/24"], true⟩ ⟨200, some ⟨true, some ⟨some []⟩⟩⟩
        [⟨200, some ⟨true⟩⟩, ⟨200, some ⟨true⟩⟩]).2 := by decide
  rw [heq] at hmem
  have := hP _ hmem
  simp [Event.isDbWrite] at this

/-! ## C9 -/

/-- Modelled from the spec: the state of the remote list after the external
API has faithfully applied one run of computed appends and removals (the
repository contains no implementation of the remote side; this is the
hypothesis of the idempotence claim).  Removals are applied to the previous
remote contents, then the appended values are present. -/
def faithfulApply (R tA tR : List String) : List String :=
  R.filter (fun p => !(tR.contains p)) ++ tA

theorem mem_faithfulApply (D R : List String) (p : String) :
    p ∈ faithfulApply R (computeDiff D R).1 (computeDiff D R).2 ↔ p ∈ D := by
  by_cases hD : p ∈ D <;> by_cases hR : p ∈ R <;>
    simp [faithfulApply, computeDiff, List.mem_filter, List.mem_append, hD, hR]

/-- C9: a second run with unchanged desired data against a remote list whose
membership now coincides with the validated desired set (as produced by a
faithful application of the first run, see `mem_faithfulApply`) computes an
empty diff in both directions, succeeds reporting 0 added and 0 removed, and
issues no PATCH at all — no append batch, no remove batch, and no
verification probe. -/
theorem syncASN_second_run_idempotent (asn : String) (env : Env) (db2 : Db)
    (st : Nat) (d R2 : List String) (trace2 : List PatchResponse)
    (hm : matchASN asn = true) (hdb : env.hasDB = true) (hc : env.credsOk = true)
    (hs : db2.desiredSuccess = true) (hr : db2.desiredResults = some d)
    (hv : validDesiredOf d ≠ [])
    (hst : statusOk st = true)
    (hmem : ∀ p, p ∈ R2 ↔ p ∈ validDesiredOf d) :
    computeDiff (validDesiredOf d) R2 = ([], [])
    ∧ syncASN asn env db2 ⟨st, some ⟨true, some ⟨some R2⟩⟩⟩ trace2
        = (.ok (0, 0),
           [Event.dbQuery lastRunSql, Event.dbQuery (desiredQuerySql asn), Event.httpGet]
             ++ updateSyncedPrefixesEvents (validDesiredOf d)
             ++ [Event.dbWrite recordSyncSql])
    ∧ (∀ e ∈ (syncASN asn env db2 ⟨st, some ⟨true, some ⟨some R2⟩⟩⟩ trace2).2,
        e.isPatch = false)
    ∧ (∀ D R p, p ∈ faithfulApply R (computeDiff D R).1 (computeDiff D R).2 ↔ p ∈ D) := by
  have hdne : d ≠ [] := by
    intro h
    exact hv (by rw [h]; rfl)
  have hde : d.isEmpty = false := by
    cases d with
    | nil => exact absurd rfl hdne
    | cons a t => rfl
  have hfd : fetchDesiredPrefixes db2 asn
      = (.ok d, [Event.dbQuery (desiredQuerySql asn)]) := by
    simp [fetchDesiredPrefixes, hs, hr, hde]
  have hfc : fetchCurrentGatewayList ⟨st, some ⟨true, some ⟨some R2⟩⟩⟩
      = (.ok R2, [Event.httpGet]) := by
    simp [fetchCurrentGatewayList, hst]
  have hdiff : computeDiff (validDesiredOf d) R2 = ([], []) := by
    simp only [computeDiff, Prod.mk.injEq, List.filter_eq_nil_iff]
    constructor
    · intro p hp
      simp [(hmem p).mpr hp]
    · intro p hp
      simp [(hmem p).mp hp]
  have hvdne : (validDesiredOf d).isEmpty = false := by
    rcases hvv : validDesiredOf d with _ | ⟨a, t⟩
    · exact absurd hvv hv
    · rfl
  have hub : updateGatewayListBatched [] [] 50 trace2
      = (.ok (), [], trace2) := rfl
  have hsync : syncASN asn env db2 ⟨st, some ⟨true, some ⟨some R2⟩⟩⟩ trace2
      = (.ok (0, 0),
         [Event.dbQuery lastRunSql, Event.dbQuery (desiredQuerySql asn), Event.httpGet]
           ++ updateSyncedPrefixesEvents (validDesiredOf d)
           ++ [Event.dbWrite recordSyncSql]) := by
    simp [syncASN, hm, hdb, hc, hfd, hfc, hvdne, hdiff, hub]
  refine ⟨hdiff, hsync, ?_, mem_faithfulApply⟩
  intro e he
  rw [hsync] at he
  simp at he
  rcases he with rfl | rfl | rfl | he | rfl
  · rfl
  · rfl
  · rfl
  · exact isDbWrite_not_patch e (updateSyncedPrefixesEvents_write _ e he)
  · rfl

/-- C9 witness: a concrete second run over one prefix. -/
theorem syncASN_second_run_idempotent_witness :
    computeDiff (validDesiredOf ["1.1.1.0/24"]) ["1.1.1.0/24"] = ([], [])
    ∧ syncASN "AS1" ⟨true, some "a", some "l", some "e", some "k"⟩
        ⟨none, true, none, some ["1.1.1.0/24"], true⟩
        ⟨200, some ⟨true, some ⟨some ["1.1.1.0/24"]⟩⟩⟩ []
      = (.ok (0, 0),
         [Event.dbQuery lastRunSql, Event.dbQuery (desiredQuerySql "AS1"), Event.httpGet]
           ++ updateSyncedPrefixesEvents (validDesiredOf ["1.1.1.0/24"])
           ++ [Event.dbWrite recordSyncSql]) := by
  have hvd : validDesiredOf ["1.1.1.0/24"] = ["1.1.1.0/24"] := by decide
  have h := syncASN_second_run_idempotent "AS1" ⟨true, some "a", some "l", some "e", some "k"⟩
    ⟨none, true, none, some ["1.1.1.0/24"], true⟩ 200 ["1.1.1.0/24"] ["1.1.1.0/24"] []
    (by decide) rfl rfl rfl rfl (by decide) (by decide) (fun p => by rw [hvd])
  exact ⟨h.1, h.2.1⟩

/-! ## C10 -/

/-- Total number of times a value is carried across the remove payloads of a
request sequence. -/
def removeOccurrences (v : String) (reqs : List BatchRequest) : Nat :=
  (reqs.map (fun r => (r.payload.rem.getD []).count v)).sum

theorem removeOccurrences_cons (v : String) (r : BatchRequest) (l : List BatchRequest) :
    removeOccurrences v (r :: l)
      = (r.payload.rem.getD []).count v + removeOccurrences v l := by
  simp [removeOccurrences]

theorem removeOccurrences_append (v : String) (r1 r2 : List BatchRequest) :
    removeOccurrences v (r1 ++ r2) = removeOccurrences v r1 + removeOccurrences v r2 := by
  simp [removeOccurrences]

theorem removeOccurrences_appendReqs (v tag : String) (total : Nat) :
    ∀ (i : Nat) (bs : List (List String)),
      removeOccurrences v
        (labeledReqs tag total (fun b => PatchPayload.mk (some b) none) i bs) = 0 := by
  intro i bs
  induction bs generalizing i with
  | nil => rfl
  | cons b rest ih =>
    rw [labeledReqs, removeOccurrences_cons, ih (i + 1)]
    rfl

theorem removeOccurrences_removeReqs (v tag : String) (total : Nat) :
    ∀ (i : Nat) (bs : List (List String)),
      removeOccurrences v
          (labeledReqs tag total (fun b => PatchPayload.mk none (some b)) i bs)
        = (bs.map (List.count v)).sum := by
  intro i bs
  induction bs generalizing i with
  | nil => rfl
  | cons b rest ih =>
    rw [labeledReqs, removeOccurrences_cons, ih (i + 1)]
    simp

theorem count_chunked (v : String) (l : List String) :
    ((chunked 50 l).map (List.count v)).sum = l.count v := by
  rw [← List.count_flatten, chunked_flatten 50 (by omega) l]

/-- C10: the remote set is not deduplicated — a 2xx success GET returns its
raw item values unchanged; a value absent from the desired set occurs in
`toRemove` exactly as many times as it occurs in the remote list; and the
remove payloads of the batched update carry it that same total number of
times. -/
theorem syncASN_remote_duplicates_each_removed (D R : List String) (v : String)
    (hv : v ∉ D) :
    (∀ (st : Nat) (vs : List String), statusOk st = true →
        (fetchCurrentGatewayList ⟨st, some ⟨true, some ⟨some vs⟩⟩⟩).1 = .ok vs)
    ∧ (computeDiff D R).2.count v = R.count v
    ∧ removeOccurrences v (batchRequests (computeDiff D R).1 (computeDiff D R).2 50)
        = R.count v := by
  have hcount : (computeDiff D R).2.count v = R.count v := by
    simp only [computeDiff]
    exact List.count_filter (by simp [hv])
  refine ⟨?_, hcount, ?_⟩
  · intro st vs hok
    simp [fetchCurrentGatewayList, hok]
  · simp only [batchRequests]
    rw [removeOccurrences_append, removeOccurrences_appendReqs, removeOccurrences_removeReqs,
      Nat.zero_add, count_chunked, hcount]

/-- C10 witness: a remote list holding the same undesired value twice sends
it twice. -/
theorem syncASN_remote_duplicates_each_removed_witness :
    (computeDiff ["1.1.1.0/24"] ["9.9.9.0/24", "9.9.9.0/24"]).2.count "9.9.9.0/24" = 2
    ∧ removeOccurrences "9.9.9.0/24"
        (batchRequests (computeDiff ["1.1.1.0/24"] ["9.9.9.0/24", "9.9.9.0/24"]).1
          (computeDiff ["1.1.1.0/24"] ["9.9.9.0/24", "9.9.9.0/24"]).2 50) = 2 := by
  have h := syncASN_remote_duplicates_each_removed ["1.1.1.0/24"]
    ["9.9.9.0/24", "9.9.9.0/24"] "9.9.9.0/24" (by decide)
  have hc : (["9.9.9.0/24", "9.9.9.0/24"] : List String).count "9.9.9.0/24" = 2 := by decide
  exact ⟨by rw [h.2.1, hc], by rw [h.2.2, hc]⟩

/-- C5 amended witness: the concrete accepted string `1.1.1.0/24` satisfies
the amended grammar via the theorem. -/
theorem isValidCIDR_grammar_witness :
    IPv4SlashP ("1.1.1.0/24" : String).data ∨ HexSlashP ("1.1.1.0/24" : String).data :=
  (isValidCIDR_grammar "1.1.1.0/24").mp (by decide)
